import Mathlib

/-!
Verification of the MNN LLM stdio service core
(`mnn_llm_stdio/src/llm_stdio_core.cpp`): the three-channel stdio
protocol and session state machine.  Each definition below is a shallow
embedding of the corresponding C++ function; strings are modelled as
`String`/`List Char`, raw bytes as `Nat` below 256, and the engine
(`m_llm`) as an opaque collaborator whose observable calls are recorded
as events.
-/

namespace LlmStdio

/-- ASCII double quote, written by code to avoid escaping noise. -/
def quoteC : Char := Char.ofNat 34

/-- ASCII backslash. -/
def backslashC : Char := Char.ofNat 92

/-- ASCII closing brace. -/
def rBraceC : Char := Char.ofNat 125

/-- Embedding of `std::string::find(c, i)`: index of the first character satisfying `p`
at position `i` or later. -/
def findIdxFrom (p : Char → Bool) (l : List Char) (i : Nat) : Option Nat :=
  ((l.drop i).findIdx? p).map (· + i)

/-- Embedding of `std::string::find(pat)`: index of the first occurrence of `pat` as a
contiguous substring. -/
def findSubIdx (pat : List Char) : List Char → Option Nat
  | [] => if pat.isEmpty then some 0 else none
  | a :: as =>
    if pat.isPrefixOf (a :: as) then some 0
    else (findSubIdx pat as).map (· + 1)

/-- The whitespace-skipping loop of `extractValue`
(`llm_stdio_core.cpp:159-161`): advance past spaces and tabs. -/
def skipWS (json_str : List Char) (i : Nat) : Nat :=
  i + ((json_str.drop i).takeWhile (fun c => c == ' ' || c == '\t')).length

/-- The closing-quote search loop of `extractValue`
(`llm_stdio_core.cpp:166-169`): find the next quote, and as long as the
character before it is a backslash, search again after it.  The fuel
argument (always called with `length + 1`) only bounds the recursion;
each iteration moves strictly forward so it never runs out. -/
def findQuoteLoop (json_str : List Char) : Nat → Nat → Option Nat
  | 0, _ => none
  | fuel + 1, start =>
    match findIdxFrom (fun c => c == quoteC) json_str start with
    | none => none
    | some end_pos =>
      if json_str.getD (end_pos - 1) (Char.ofNat 0) == backslashC then
        findQuoteLoop json_str fuel (end_pos + 1)
      else some end_pos

/-- The unquoted-value scan of `extractValue` (`llm_stdio_core.cpp:176-181`):
take characters until a comma, closing brace, closing bracket or space. -/
def scanPlain (json_str : List Char) (start_pos : Nat) : List Char :=
  (json_str.drop start_pos).takeWhile
    (fun c => !(c == ',' || c == rBraceC || c == ']' || c == ' '))

/-- Embedding of `extractValue` (`llm_stdio_core.cpp:147-182`): best-effort field
extraction.  Locate the quoted key, then the next colon, skip spaces and
tabs; a quoted value is the substring up to the next quote not preceded
by a backslash (returned verbatim, escapes included); if the closing
quote is missing, or the value is unquoted, fall through to the plain
scan.  `json_str[start_pos]` at `start_pos = size` reads the C++
terminating NUL, modelled by the `getD` default. -/
def extractValue (json_str : List Char) (key : List Char) : List Char :=
  match findSubIdx (quoteC :: key ++ [quoteC]) json_str with
  | none => []
  | some key_pos =>
    match findIdxFrom (fun c => c == ':') json_str key_pos with
    | none => []
    | some colon_pos =>
      let start_pos := skipWS json_str (colon_pos + 1)
      if json_str.getD start_pos (Char.ofNat 0) == quoteC then
        let sp := start_pos + 1
        match findQuoteLoop json_str (json_str.length + 1) sp with
        | some end_pos => (json_str.drop sp).take (end_pos - sp)
        | none => scanPlain json_str sp
      else
        scanPlain json_str start_pos

/-- Embedding of `extractValue` on `String`s. -/
def extractValueS (json key : String) : String :=
  String.mk (extractValue json.toList key.toList)

/-- Embedding of `LlmStdioCore::Request` (`llm_stdio_core.hpp:46-51`).  The `params`
map only ever holds the key `"max_new_tokens"`, modelled as the field
`maxNewTokens` (empty when absent). -/
structure Request where
  id : String := ""
  method : String := ""
  content : String := ""
  maxNewTokens : String := ""
deriving DecidableEq, Repr

/-- Embedding of `LlmStdioCore::parseRequest` (`llm_stdio_core.cpp:184-204`). -/
def parseRequest (request_str : String) : Request :=
  let type := extractValueS request_str "type"
  let rid := extractValueS request_str "id"
  if type == "chat" then
    { method := type, id := rid,
      content := extractValueS request_str "prompt",
      maxNewTokens := extractValueS request_str "max_new_tokens" }
  else if type == "system_prompt" then
    { method := type, id := rid, content := extractValueS request_str "content" }
  else
    { method := type, id := rid }

/-! ### JSON string escaping (`escapeJsonString`, bytes) -/

/-- The value of a `char` in the signed-`char` C++ ABI: bytes at or above
128 read as negative.  `escapeJsonString` compares `c < ' '` and
`c > 127` on this signed value. -/
def signedChar (b : Nat) : Int :=
  if b < 128 then (b : Int) else (b : Int) - 256

/-- One uppercase hexadecimal digit, as produced by `sprintf "%04X"`. -/
def hexDigU (n : Nat) : Char :=
  if n < 10 then Char.ofNat (48 + n) else Char.ofNat (55 + n)

/-- Embedding of `sprintf("%04X", b)` for `b < 256`: two zero digits then two hex
digits of the byte. -/
def hex4 (b : Nat) : String :=
  String.mk ['0', '0', hexDigU (b / 16), hexDigU (b % 16)]

/-- The per-byte body of the loop in `escapeJsonString`
(`llm_stdio_core.cpp:70-103`), on a raw byte `b`: the seven standard
escapes, else a `\u00XX` escape when the signed char is below `' '` or
above 127 (the hex digits taken from the unsigned byte), else the byte
itself. -/
def escapeByte (b : Nat) : String :=
  if b = 34 then String.mk [backslashC, quoteC]
  else if b = 92 then String.mk [backslashC, backslashC]
  else if b = 8 then String.mk [backslashC, 'b']
  else if b = 12 then String.mk [backslashC, 'f']
  else if b = 10 then String.mk [backslashC, 'n']
  else if b = 13 then String.mk [backslashC, 'r']
  else if b = 9 then String.mk [backslashC, 't']
  else if signedChar b < 32 || signedChar b > 127 then
    String.mk [backslashC, 'u'] ++ hex4 b
  else String.singleton (Char.ofNat b)

/-- Embedding of `LlmStdioCore::escapeJsonString` (`llm_stdio_core.cpp:68-106`) on the
byte sequence of a `std::string`: concatenate the escape of each byte. -/
def escapeJsonString (bs : List Nat) : String :=
  String.join (bs.map escapeByte)

/-- UTF-8 encoding of one code point, to present a Lean `String` as the
byte sequence a `std::string` holds. -/
def utf8Bytes (c : Char) : List Nat :=
  let n := c.toNat
  if n < 128 then [n]
  else if n < 2048 then [192 + n / 64, 128 + n % 64]
  else if n < 65536 then [224 + n / 4096, 128 + (n / 64) % 64, 128 + n % 64]
  else [240 + n / 262144, 128 + (n / 4096) % 64, 128 + (n / 64) % 64, 128 + n % 64]

/-- The bytes of a string under UTF-8. -/
def strBytes (s : String) : List Nat :=
  (s.toList.map utf8Bytes).flatten

/-- Embedding of `escapeJsonString` applied to a Lean `String`, byte-wise as in C++. -/
def escapeJsonStr (s : String) : String :=
  escapeJsonString (strBytes s)

/-! ### Structured stderr messages (`createStderrMessage`) -/

/-- Embedding of `LlmStdioCore::createStderrMessage` (`llm_stdio_core.cpp:108-138`).
The timestamp (milliseconds since epoch, read from the system clock at
encode time) is passed in as `ts`. -/
def createStderrMessage (message_type status message response_text data : String)
    (ts : Nat) : String :=
  "\x7b\"type\":\"" ++ escapeJsonStr message_type ++ "\"" ++
  (if status.isEmpty then "" else ",\"status\":\"" ++ escapeJsonStr status ++ "\"") ++
  (if message.isEmpty then "" else ",\"message\":\"" ++ escapeJsonStr message ++ "\"") ++
  (if response_text.isEmpty then ""
   else ",\"response\":\"" ++ escapeJsonStr response_text ++ "\"") ++
  (if data.isEmpty then "" else ",\"data\":" ++ data) ++
  ",\"timestamp\":" ++ Nat.repr ts ++ "\x7d"

/-- One diagnostic-channel emission: the five arguments a handler passes
to `createStderrMessage` (the timestamp is read from the clock at encode
time and is not part of the handler's choice). -/
structure Diag where
  mtype : String
  status : String := ""
  message : String := ""
  response : String := ""
  data : String := ""
deriving DecidableEq, Repr

/-! ### Generation-length override (`handleChatRequest`, lines 289-314) -/

/-- The manual validity check of `handleChatRequest`
(`llm_stdio_core.cpp:293-309`) on a non-empty override string: skip one
leading `+` or `-`, then require every remaining character to be a
decimal digit (vacuously true when only the sign remains). -/
def isValidNumber (s : String) : Bool :=
  let l := s.toList
  let rest := match l with
    | c :: cs => if c == '+' || c == '-' then cs else c :: cs
    | [] => []
  rest.all (·.isDigit)

/-- Embedding of `std::stoi`: skip leading whitespace, read an optional sign and one
or more digits; throws `std::invalid_argument` (modelled `.error ()`)
when no digit follows, and `std::out_of_range` when the value leaves
`int` range. -/
def cppStoi (s : String) : Except Unit Int :=
  let l := s.toList.dropWhile (·.isWhitespace)
  let (sgn, l') : Int × List Char := match l with
    | c :: cs => if c == '-' then (-1, cs) else if c == '+' then (1, cs) else (1, l)
    | [] => (1, [])
  let digits := l'.takeWhile (·.isDigit)
  if digits.isEmpty then Except.error ()
  else
    let v : Int := sgn * (digits.foldl (fun a c => 10 * a + (c.toNat - 48)) 0 : Nat)
    if v < -2147483648 || 2147483647 < v then Except.error ()
    else Except.ok v

/-- The max_new_tokens resolution of `handleChatRequest`
(`llm_stdio_core.cpp:289-314`): default -1; a non-empty override that
passes the manual check is handed to `std::stoi` (which can still
throw, since a bare sign passes the check); otherwise it is ignored. -/
def resolveMaxNewTokens (v : String) : Except Unit Int :=
  if v.isEmpty then Except.ok (-1)
  else if isValidNumber v then cppStoi v
  else Except.ok (-1)

/-! ### Streaming output adapter (`StreamingBuffer`, lines 207-243) -/

/-- One item appearing on the primary channel (stdout). -/
inductive StdoutEv where
  | startMarker : StdoutEv
  | endMarker : StdoutEv
  | chunk : String → StdoutEv
deriving DecidableEq, Repr

/-- One observable call into the engine facade (`m_llm`). -/
inductive EngineOp where
  | reset : EngineOp
  | respond : List (String × String) → Int → EngineOp
  | getContext : EngineOp
deriving DecidableEq, Repr

/-- Embedding of `StreamingBuffer::xsputn`/`overflow` (`llm_stdio_core.cpp:226-243`)
on one write of `s` with `started` flag `st`: a write of at least one
byte first runs `startStream` (emitting the start marker if not yet
started) and then forwards the bytes; a zero-length write does
nothing. -/
def sbWrite (st : Bool) (s : String) : Bool × List StdoutEv :=
  if s.isEmpty then (st, [])
  else if st then (st, [StdoutEv.chunk s])
  else (true, [StdoutEv.startMarker, StdoutEv.chunk s])

/-- The stream of writes the engine performs through the tee into the
`StreamingBuffer`, folded over `sbWrite`. -/
def runSB (st : Bool) : List String → Bool × List StdoutEv
  | [] => (st, [])
  | w :: ws =>
    let (st', evs) := sbWrite st w
    let (st'', evs') := runSB st' ws
    (st'', evs ++ evs')

/-- Embedding of `StreamingBuffer::endStream` (`llm_stdio_core.cpp:218-224`): emit
the end marker only if the stream was started. -/
def sbEnd (st : Bool) : List StdoutEv :=
  if st then [StdoutEv.endMarker] else []

/-! ### Session state and handlers -/

/-- The session state of `LlmStdioCore` (`llm_stdio_core.hpp:39-41,165-167`). -/
structure SessionState where
  system_prompt : String
  chat_history : List (String × String)
  processing : Bool
deriving DecidableEq, Repr

/-- The state after the `LlmStdioCore` constructor (`llm_stdio_core.cpp:24-27`). -/
def initialState : SessionState :=
  { system_prompt := "", chat_history := [], processing := false }

/-- The observable outcome of one completed handler call or loop run:
final session state, the items written to stdout, the diagnostics
written to stderr, and the engine calls made. -/
structure RunResult where
  state : SessionState
  stdout : List StdoutEv
  diags : List Diag
  ops : List EngineOp
deriving DecidableEq, Repr

/-- Embedding of `LlmStdioCore::handleChatRequest` (`llm_stdio_core.cpp:286-392`),
with the engine's `response` call modelled by the chunks `ws` it writes
to the sink.  Resolve the override (a throw aborts the process:
`.error`); build the message list `[system if set] ++ history ++ [user]`;
run the writes through the streaming buffer and then `endStream`; the
capture buffer accumulates every byte written (`String.join ws`); append
the user and assistant turns to the history; emit the completion status
diagnostic and the full-response diagnostic. -/
def handleChatRequest (st : SessionState) (req : Request) (ws : List String) :
    Except Unit RunResult := do
  let max_new_tokens ← resolveMaxNewTokens req.maxNewTokens
  let messages :=
    (if st.system_prompt.isEmpty then [] else [("system", st.system_prompt)]) ++
    st.chat_history ++ [("user", req.content)]
  let full_response := String.join ws
  let (started, evs) := runSB false ws
  Except.ok
    { state := { st with
        chat_history := st.chat_history ++
          [("user", req.content), ("assistant", full_response)],
        processing := false },
      stdout := evs ++ sbEnd started,
      diags := [⟨"status", "success", "流式输出完成", "", ""⟩,
                ⟨"response", "success", "完整响应已生成", full_response, ""⟩],
      ops := [EngineOp.respond messages max_new_tokens] }

/-- Embedding of `LlmStdioCore::handleResetRequest` (`llm_stdio_core.cpp:278-284`):
clear the history, call the engine's `reset`, emit one success
diagnostic; the system prompt is untouched. -/
def handleResetRequest (st : SessionState) : RunResult :=
  { state := { st with chat_history := [] },
    stdout := [],
    diags := [⟨"message", "success", "模型已重置，对话历史已清空，系统提示词保留", "", ""⟩],
    ops := [EngineOp.reset] }

/-- Embedding of `LlmStdioCore::handleSystemPromptRequest` (`llm_stdio_core.cpp:267-276`):
non-empty content overwrites the stored system prompt with a success
diagnostic; empty content emits an error diagnostic and changes
nothing. -/
def handleSystemPromptRequest (st : SessionState) (req : Request) : RunResult :=
  if !req.content.isEmpty then
    { state := { st with system_prompt := req.content },
      stdout := [],
      diags := [⟨"message", "success", "系统提示词设置成功", "", ""⟩],
      ops := [] }
  else
    { state := st,
      stdout := [],
      diags := [⟨"error", "error", "系统提示词内容为空", "", ""⟩],
      ops := [] }

/-- Embedding of `LlmStdioCore::handleStatusRequest` (`llm_stdio_core.cpp:394-405`),
with the engine context counters passed in: emit one informational
diagnostic; the session state is only read. -/
def handleStatusRequest (st : SessionState) (prompt_len gen_seq_len : Nat) :
    RunResult :=
  let status := if st.processing then "processing" else "idle"
  { state := st,
    stdout := [],
    diags := [⟨"status", "info",
      "status:" ++ status ++
      ",prompt_len:" ++ Nat.repr prompt_len ++
      ",gen_seq_len:" ++ Nat.repr gen_seq_len ++
      ",chat_history_count:" ++ Nat.repr st.chat_history.length, "", ""⟩],
    ops := [] }

/-! ### Service loop (`run`, lines 407-442) -/

/-- The environment of one loop iteration: the line read from stdin,
and the engine-dependent data a handler on that line would consume
(chunks written by `response` for a chat, context counters for a
status query). -/
structure LineInput where
  line : String
  engineWrites : List String := []
  promptLen : Nat := 0
  genSeqLen : Nat := 0

/-- Concatenate the outputs of one completed handler call with the
outcome of the remaining loop iterations. -/
def stepJoin (r : RunResult) (k : Except Unit RunResult) : Except Unit RunResult :=
  match k with
  | Except.error e => Except.error e
  | Except.ok r2 =>
    Except.ok { state := r2.state, stdout := r.stdout ++ r2.stdout,
                diags := r.diags ++ r2.diags, ops := r.ops ++ r2.ops }

/-- Embedding of `LlmStdioCore::run` (`llm_stdio_core.cpp:407-442`) over a finite
stdin transcript (end of the list = end of input).  Empty lines are
skipped; otherwise the line is parsed and dispatched in the source's
branch order; `exit` stops before touching the rest; an unknown method
emits one error diagnostic naming it and continues. -/
def runLoop (st : SessionState) : List LineInput → Except Unit RunResult
  | [] => Except.ok { state := st, stdout := [], diags := [], ops := [] }
  | inp :: rest =>
    if inp.line.isEmpty then runLoop st rest
    else
      let req := parseRequest inp.line
      if req.method == "chat" then
        match handleChatRequest st req inp.engineWrites with
        | Except.error e => Except.error e
        | Except.ok r => stepJoin r (runLoop r.state rest)
      else if req.method == "status" then
        let r := handleStatusRequest st inp.promptLen inp.genSeqLen
        stepJoin r (runLoop r.state rest)
      else if req.method == "system_prompt" then
        let r := handleSystemPromptRequest st req
        stepJoin r (runLoop r.state rest)
      else if req.method == "reset" then
        let r := handleResetRequest st
        stepJoin r (runLoop r.state rest)
      else if req.method == "exit" then
        Except.ok { state := st, stdout := [], diags := [], ops := [] }
      else
        stepJoin { state := st, stdout := [],
                   diags := [⟨"error", "error", "未知请求类型: " ++ req.method, "", ""⟩],
                   ops := [] } (runLoop st rest)

/-! ### A conformant JSON reader for flat objects

Used to check what a standard JSON parser decodes from the encoder's
output (claim C6).  It covers the subset the encoder emits: one
non-empty object whose values are strings (with the standard
two-character escapes) or natural-number literals, no whitespace. -/

/-- A decoded flat JSON value. -/
inductive JVal where
  | str : String → JVal
  | num : Nat → JVal
deriving DecidableEq, Repr

/-- Decode one two-character escape (JSON `\"`, `\\`, `\/`, `\b`, `\f`,
`\n`, `\r`, `\t`). -/
def unescChar (e : Char) : Option Char :=
  if e == quoteC then some quoteC
  else if e == backslashC then some backslashC
  else if e == '/' then some '/'
  else if e == 'b' then some (Char.ofNat 8)
  else if e == 'f' then some (Char.ofNat 12)
  else if e == 'n' then some (Char.ofNat 10)
  else if e == 'r' then some (Char.ofNat 13)
  else if e == 't' then some (Char.ofNat 9)
  else none

/-- Read a JSON string body (after the opening quote), un-escaping as a
conformant reader does; returns the decoded characters and the rest of
the input after the closing quote. -/
def readJsonStr : List Char → Option (List Char × List Char)
  | [] => none
  | c :: rest =>
    if c == quoteC then some ([], rest)
    else if c == backslashC then
      match rest with
      | [] => none
      | e :: rest' =>
        match unescChar e, readJsonStr rest' with
        | some ec, some (s, r) => some (ec :: s, r)
        | _, _ => none
    else
      match readJsonStr rest with
      | some (s, r) => some (c :: s, r)
      | none => none

/-- Read a natural-number literal. -/
def readJsonNum (l : List Char) : Option (Nat × List Char) :=
  let ds := l.takeWhile (·.isDigit)
  if ds.isEmpty then none
  else some (ds.foldl (fun a c => 10 * a + (c.toNat - 48)) 0, l.drop ds.length)

/-- Read one JSON value of the flat subset (string or number). -/
def readJVal (l : List Char) : Option (JVal × List Char) :=
  match l with
  | [] => none
  | c :: rest =>
    if c == quoteC then
      (readJsonStr rest).map (fun p => (JVal.str (String.mk p.1), p.2))
    else
      match readJsonNum (c :: rest) with
      | some (n, r) => some (JVal.num n, r)
      | none => none

/-- Read the `"key":value` fields of an object body up to the closing
brace (fuel-bounded; each field consumes input). -/
def readFields : Nat → List Char → Option (List (String × JVal) × List Char)
  | 0, _ => none
  | fuel + 1, l =>
    match l with
    | [] => none
    | c :: rest =>
      if c == quoteC then
        match readJsonStr rest with
        | some (k, r1) =>
          match r1 with
          | [] => none
          | c2 :: r2 =>
            if c2 == ':' then
              match readJVal r2 with
              | some (v, r3) =>
                match r3 with
                | [] => none
                | c3 :: r4 =>
                  if c3 == ',' then
                    match readFields fuel r4 with
                    | some (fs, r5) => some ((String.mk k, v) :: fs, r5)
                    | none => none
                  else if c3 == rBraceC then some ([(String.mk k, v)], r4)
                  else none
              | none => none
            else none
        | none => none
      else none

/-- Decode one flat JSON object, requiring the whole input consumed. -/
def parseJsonObj (s : String) : Option (List (String × JVal)) :=
  match s.toList with
  | [] => none
  | c :: rest =>
    if c == Char.ofNat 123 then
      match readFields (s.length + 1) rest with
      | some (fs, []) => some fs
      | _ => none
    else none

/-! ### Spec-side comparison definitions -/

/-- A field value of the structured envelope, before rendering: an
escaped string, raw pre-validated JSON, or a number. -/
inductive FieldVal where
  | sv : String → FieldVal
  | rawv : String → FieldVal
  | nv : Nat → FieldVal
deriving DecidableEq, Repr

/-- The field list of the structured envelope as the spec describes it
(§4.2): `type` always, then each optional field only when non-empty, in
the order status, message, response, data, then `timestamp` always. -/
def stderrFields (message_type status message response_text data : String)
    (ts : Nat) : List (String × FieldVal) :=
  [("type", FieldVal.sv message_type)] ++
  (if status.isEmpty then [] else [("status", FieldVal.sv status)]) ++
  (if message.isEmpty then [] else [("message", FieldVal.sv message)]) ++
  (if response_text.isEmpty then [] else [("response", FieldVal.sv response_text)]) ++
  (if data.isEmpty then [] else [("data", FieldVal.rawv data)]) ++
  [("timestamp", FieldVal.nv ts)]

/-- Render one envelope field. -/
def renderField : String × FieldVal → String
  | (k, FieldVal.sv v) => "\"" ++ k ++ "\":\"" ++ escapeJsonStr v ++ "\""
  | (k, FieldVal.rawv v) => "\"" ++ k ++ "\":" ++ v
  | (k, FieldVal.nv n) => "\"" ++ k ++ "\":" ++ Nat.repr n

/-- Render a comma-separated field list. -/
def renderFieldList : List (String × FieldVal) → String
  | [] => ""
  | [f] => renderField f
  | f :: g :: fs => renderField f ++ "," ++ renderFieldList (g :: fs)

/-- Render a whole envelope object. -/
def renderObj (fs : List (String × FieldVal)) : String :=
  "\x7b" ++ renderFieldList fs ++ "\x7d"

/-- The escaping rule exactly as the spec words it (§4.2), on an
unsigned byte: the seven standard escapes; any other byte below 0x20 or
above 0x7F becomes a four-hex-digit `\u00XX` escape of the raw byte;
everything else is copied through. -/
def specEscapeByte (b : Nat) : String :=
  if b = 34 then String.mk [backslashC, quoteC]
  else if b = 92 then String.mk [backslashC, backslashC]
  else if b = 8 then String.mk [backslashC, 'b']
  else if b = 12 then String.mk [backslashC, 'f']
  else if b = 10 then String.mk [backslashC, 'n']
  else if b = 13 then String.mk [backslashC, 'r']
  else if b = 9 then String.mk [backslashC, 't']
  else if b < 32 || 127 < b then String.mk [backslashC, 'u'] ++ hex4 b
  else String.singleton (Char.ofNat b)

/-! ### Helper lemmas -/

/-- Pushing the streaming buffer once started: every non-empty write is
forwarded as a chunk, no further markers appear. -/
lemma runSB_true (ws : List String) :
    runSB true ws = (true, (ws.filter (fun s => !s.isEmpty)).map StdoutEv.chunk) := by
  induction ws with
  | nil => simp [runSB]
  | cons w ws ih =>
    cases hw : w.isEmpty <;> simp [runSB, sbWrite, hw, ih]

/-- The streaming buffer from the unstarted state: silence when every
write is empty, otherwise one start marker followed by the non-empty
writes. -/
lemma runSB_false (ws : List String) :
    runSB false ws =
      if ws.all (fun s => s.isEmpty) then (false, [])
      else (true, StdoutEv.startMarker ::
        (ws.filter (fun s => !s.isEmpty)).map StdoutEv.chunk) := by
  induction ws with
  | nil => simp [runSB]
  | cons w ws ih =>
    cases hw : w.isEmpty
    · simp [runSB, sbWrite, hw, runSB_true]
    · simp [runSB, sbWrite, hw, ih, List.filter_cons]

/-- Dropping empty chunks does not change the concatenation. -/
lemma join_filter_nonempty (ws : List String) :
    String.join (ws.filter (fun s => !s.isEmpty)) = String.join ws := by
  apply String.ext
  simp only [String.data_join]
  induction ws with
  | nil => rfl
  | cons w ws ih =>
    cases hw : w.isEmpty
    · simp [List.filter_cons, hw, ih]
    · have hd : w.data = [] := by simp [(String.isEmpty_iff w).mp hw]
      simp [List.filter_cons, hw, hd, ih]

/-- Complete characterization of a chat handler call that runs to
completion. -/
lemma handleChat_ok {st : SessionState} {req : Request} {ws : List String}
    {cr : RunResult} (h : handleChatRequest st req ws = Except.ok cr) :
    cr.state = { st with
        chat_history := st.chat_history ++
          [("user", req.content), ("assistant", String.join ws)],
        processing := false } ∧
    cr.stdout = (runSB false ws).2 ++ sbEnd (runSB false ws).1 ∧
    cr.diags = [⟨"status", "success", "流式输出完成", "", ""⟩,
                ⟨"response", "success", "完整响应已生成", String.join ws, ""⟩] ∧
    ∃ mnt, resolveMaxNewTokens req.maxNewTokens = Except.ok mnt ∧
      cr.ops = [EngineOp.respond
        ((if st.system_prompt.isEmpty then [] else [("system", st.system_prompt)]) ++
          st.chat_history ++ [("user", req.content)]) mnt] := by
  unfold handleChatRequest at h
  rcases hm : resolveMaxNewTokens req.maxNewTokens with e | mnt <;> rw [hm] at h
  · simp [Bind.bind, Except.bind] at h
  · simp only [Bind.bind, Except.bind] at h
    rcases hsb : runSB false ws with ⟨started, evs⟩
    rw [hsb] at h
    simp only [Except.ok.injEq] at h
    subst h
    refine ⟨rfl, ?_, rfl, mnt, rfl, rfl⟩
    simp [hsb]

/-! ### Claim theorems -/

instance instDecEqExcept {ε α : Type _} [DecidableEq ε] [DecidableEq α] :
    DecidableEq (Except ε α)
  | Except.error e, Except.error f =>
    if h : e = f then isTrue (by rw [h])
    else isFalse (fun hh => h (Except.error.inj hh))
  | Except.error _, Except.ok _ => isFalse (fun hh => Except.noConfusion hh)
  | Except.ok _, Except.error _ => isFalse (fun hh => Except.noConfusion hh)
  | Except.ok a, Except.ok b =>
    if h : a = b then isTrue (by rw [h])
    else isFalse (fun hh => h (Except.ok.inj hh))

/-- The input line of claim C1:
`{"type":"chat","id":"7","prompt":"hello \"world\""}`. -/
def chatLineC1 : String :=
  "\x7b\"type\":\"chat\",\"id\":\"7\",\"prompt\":\"hello \\\"world\\\"\"\x7d"

set_option maxRecDepth 8192 in
/-- Claim C1, counterexample: on the given line `parseRequest` does NOT
return the un-escaped content `hello "world"` — the scan returns the
inner substring verbatim, backslashes included. -/
theorem parseRequest_escapedQuote_counterexample :
    ¬ ((parseRequest chatLineC1).method = "chat" ∧
       (parseRequest chatLineC1).id = "7" ∧
       (parseRequest chatLineC1).content = "hello \"world\"") := by decide

set_option maxRecDepth 8192 in
/-- Claim C1, amended: on the given line `parseRequest` returns
method `chat`, id `7`, and content `hello \"world\"` — the scanned
string value with the backslash-quote sequences preserved verbatim
(no un-escaping takes place). -/
theorem parseRequest_escapedQuote_amended :
    (parseRequest chatLineC1).method = "chat" ∧
    (parseRequest chatLineC1).id = "7" ∧
    (parseRequest chatLineC1).content = "hello \\\"world\\\"" := by decide

set_option maxRecDepth 8192 in
/-- Claim C2: the overrides `"128"` and `"+50"` are accepted, `"12a"`
and `""` fall back to the engine default -1 — but `"-"` is NOT silently
rejected: the manual validity check accepts a bare sign, and the
subsequent `std::stoi("-")` throws (modelled `.error`), aborting the
process instead of using the default budget. -/
theorem maxNewTokens_override_eval :
    resolveMaxNewTokens "128" = Except.ok 128 ∧
    resolveMaxNewTokens "+50" = Except.ok 50 ∧
    resolveMaxNewTokens "12a" = Except.ok (-1) ∧
    resolveMaxNewTokens "" = Except.ok (-1) ∧
    isValidNumber "-" = true ∧
    cppStoi "-" = Except.error () ∧
    resolveMaxNewTokens "-" = Except.error () := by decide

set_option maxRecDepth 16384 in
/-- The byte-level escape function agrees with the spec's unsigned-range
description on every byte. -/
lemma escapeByte_eq_spec : ∀ b < 256, escapeByte b = specEscapeByte b := by decide

/-- Claim C7: `escapeJsonString` maps each byte independently: the seven
standard two-character escapes; any other byte below 0x20 or above 0x7F
becomes the four-hex-digit `\u00XX` escape of the raw byte value; bytes
0x20-0x7F other than quote and backslash pass through unchanged. -/
theorem escapeJsonString_spec (bs : List Nat) (h : ∀ b ∈ bs, b < 256) :
    escapeJsonString bs = String.join (bs.map specEscapeByte) := by
  unfold escapeJsonString
  congr 1
  exact List.map_congr_left (fun b hb => escapeByte_eq_spec b (h b hb))

/-- Witness for C7 at a concrete byte string containing a quote, a
backslash, control bytes, DEL and a multi-byte UTF-8 sequence. -/
theorem escapeJsonString_spec_witness :
    (∀ b ∈ [72, 10, 34, 92, 127, 31, 228, 189, 160], b < 256) ∧
    escapeJsonString [72, 10, 34, 92, 127, 31, 228, 189, 160] =
      String.join ([72, 10, 34, 92, 127, 31, 228, 189, 160].map specEscapeByte) :=
  ⟨by decide, escapeJsonString_spec _ (by decide)⟩

/-- Claim C8: the system_prompt handler leaves the whole session state
unchanged and emits one error diagnostic when the payload content is
empty, and overwrites the stored prompt with one success diagnostic when
it is non-empty. -/
theorem systemPrompt_handler_spec (st : SessionState) (req : Request) :
    (req.content = "" →
      handleSystemPromptRequest st req =
        { state := st, stdout := [],
          diags := [⟨"error", "error", "系统提示词内容为空", "", ""⟩], ops := [] }) ∧
    (req.content ≠ "" →
      handleSystemPromptRequest st req =
        { state := { st with system_prompt := req.content }, stdout := [],
          diags := [⟨"message", "success", "系统提示词设置成功", "", ""⟩], ops := [] }) := by
  constructor
  · intro h
    have he : req.content.isEmpty = true := by rw [h]; rfl
    simp [handleSystemPromptRequest, he]
  · intro h
    have he : req.content.isEmpty = false := by
      rw [Bool.eq_false_iff]
      intro hc
      exact h ((String.isEmpty_iff req.content).mp hc)
    simp [handleSystemPromptRequest, he]

/-- Witness for C8: both branches at concrete requests. -/
theorem systemPrompt_handler_spec_witness :
    handleSystemPromptRequest initialState { method := "system_prompt" } =
      { state := initialState, stdout := [],
        diags := [⟨"error", "error", "系统提示词内容为空", "", ""⟩], ops := [] } ∧
    handleSystemPromptRequest initialState { method := "system_prompt", content := "X" } =
      { state := { initialState with system_prompt := "X" }, stdout := [],
        diags := [⟨"message", "success", "系统提示词设置成功", "", ""⟩], ops := [] } :=
  ⟨(systemPrompt_handler_spec initialState _).1 rfl,
   (systemPrompt_handler_spec initialState _).2 (by decide)⟩

/-- Chunk events carry no markers. -/
lemma count_chunk_map (e : StdoutEv) (hne : ∀ s, e ≠ StdoutEv.chunk s)
    (xs : List String) : (xs.map StdoutEv.chunk).count e = 0 := by
  rw [List.count_eq_zero]
  intro hx
  rw [List.mem_map] at hx
  obtain ⟨s, -, hs⟩ := hx
  exact hne s hs.symm

/-- Claim C3: a completed chat whose engine call writes at least one
byte puts exactly one start marker and one end marker on stdout, the
start marker first; a completed chat with zero bytes written emits
nothing at all on stdout. -/
theorem chat_stream_markers (st : SessionState) (req : Request) (ws : List String)
    (r : RunResult) (h : handleChatRequest st req ws = Except.ok r) :
    (ws.all (fun s => s.isEmpty) = true → r.stdout = []) ∧
    (ws.all (fun s => s.isEmpty) = false →
      r.stdout = StdoutEv.startMarker ::
        ((ws.filter (fun s => !s.isEmpty)).map StdoutEv.chunk ++ [StdoutEv.endMarker]) ∧
      r.stdout.count StdoutEv.startMarker = 1 ∧
      r.stdout.count StdoutEv.endMarker = 1 ∧
      r.stdout.head? = some StdoutEv.startMarker) := by
  obtain ⟨-, hout, -, -⟩ := handleChat_ok h
  constructor
  · intro hall
    rw [hout, runSB_false, if_pos hall]
    simp [sbEnd]
  · intro hall
    rw [hout, runSB_false, if_neg (by simp [hall])]
    have hform : (StdoutEv.startMarker ::
        (ws.filter (fun s => !s.isEmpty)).map StdoutEv.chunk, sbEnd true).1 ++
        sbEnd (StdoutEv.startMarker ::
        (ws.filter (fun s => !s.isEmpty)).map StdoutEv.chunk, true).2 =
        StdoutEv.startMarker ::
        ((ws.filter (fun s => !s.isEmpty)).map StdoutEv.chunk ++ [StdoutEv.endMarker]) := by
      simp [sbEnd]
    refine ⟨by simp [sbEnd], ?_, ?_, by simp [sbEnd]⟩
    · simp [sbEnd, List.count_cons, List.count_append,
        count_chunk_map StdoutEv.startMarker (by intro s hs; cases hs)]
    · simp [sbEnd, List.count_cons, List.count_append,
        count_chunk_map StdoutEv.endMarker (by intro s hs; cases hs)]

/-- Witness for C3: a one-chunk engine call and a zero-write engine
call, both at concrete inputs. -/
theorem chat_stream_markers_witness :
    ((["hi"] : List String).all (fun s => s.isEmpty)) = false ∧
    handleChatRequest initialState { method := "chat", content := "q" } ["hi"] =
      Except.ok
        { state := { system_prompt := "",
                     chat_history := [("user", "q"), ("assistant", "hi")],
                     processing := false },
          stdout := [StdoutEv.startMarker, StdoutEv.chunk "hi", StdoutEv.endMarker],
          diags := [⟨"status", "success", "流式输出完成", "", ""⟩,
                    ⟨"response", "success", "完整响应已生成", "hi", ""⟩],
          ops := [EngineOp.respond [("user", "q")] (-1)] } ∧
    ([StdoutEv.startMarker, StdoutEv.chunk "hi", StdoutEv.endMarker] :
        List StdoutEv).count StdoutEv.startMarker = 1 ∧
    ([StdoutEv.startMarker, StdoutEv.chunk "hi", StdoutEv.endMarker] :
        List StdoutEv).count StdoutEv.endMarker = 1 :=
  ⟨by decide, rfl,
   ((chat_stream_markers initialState { method := "chat", content := "q" } ["hi"]
      _ rfl).2 (by decide)).2.1,
   ((chat_stream_markers initialState { method := "chat", content := "q" } ["hi"]
      _ rfl).2 (by decide)).2.2.1⟩

/-- The text of a stdout content event, `none` on markers. -/
def chunkText : StdoutEv → Option String
  | StdoutEv.chunk s => some s
  | _ => none

/-- Claim C10: for a completed chat, the assistant history entry, the
bytes streamed between the markers, and the response field of the second
diagnostic all equal the verbatim capture of everything the engine wrote
(`String.join ws`). -/
theorem chat_capture_consistency (st : SessionState) (req : Request)
    (ws : List String) (r : RunResult)
    (h : handleChatRequest st req ws = Except.ok r) :
    r.state.chat_history =
      st.chat_history ++ [("user", req.content), ("assistant", String.join ws)] ∧
    String.join (r.stdout.filterMap chunkText) = String.join ws ∧
    r.diags = [⟨"status", "success", "流式输出完成", "", ""⟩,
               ⟨"response", "success", "完整响应已生成", String.join ws, ""⟩] := by
  obtain ⟨hst, hout, hd, -⟩ := handleChat_ok h
  refine ⟨by rw [hst], ?_, hd⟩
  rw [hout, runSB_false]
  cases hall : ws.all (fun s => s.isEmpty)
  · have hmap : ∀ xs : List String,
        List.filterMap chunkText (xs.map StdoutEv.chunk) = xs := by
      intro xs
      induction xs with
      | nil => rfl
      | cons a as ih => simp [chunkText, ih]
    simp [sbEnd, chunkText, hmap, join_filter_nonempty]
  · have hfil : ws.filter (fun s => !s.isEmpty) = [] := by
      rw [List.filter_eq_nil_iff]
      intro s hs
      simp [List.all_eq_true] at hall
      simp [hall s hs]
    have h2 := join_filter_nonempty ws
    rw [hfil] at h2
    simp [sbEnd]
    simpa [String.join] using h2

/-- Witness for C10 at a concrete two-chunk engine call. -/
theorem chat_capture_consistency_witness :
    handleChatRequest initialState { method := "chat", content := "q" } ["a", "b"] =
      Except.ok
        { state := { system_prompt := "",
                     chat_history := [("user", "q"), ("assistant", "ab")],
                     processing := false },
          stdout := [StdoutEv.startMarker, StdoutEv.chunk "a",
                     StdoutEv.chunk "b", StdoutEv.endMarker],
          diags := [⟨"status", "success", "流式输出完成", "", ""⟩,
                    ⟨"response", "success", "完整响应已生成", "ab", ""⟩],
          ops := [EngineOp.respond [("user", "q")] (-1)] } ∧
    ([("user", "q"), ("assistant", "ab")] : List (String × String)) =
      [] ++ [("user", "q"), ("assistant", String.join ["a", "b"])] ∧
    String.join (([StdoutEv.startMarker, StdoutEv.chunk "a",
      StdoutEv.chunk "b", StdoutEv.endMarker].filterMap chunkText)) =
      String.join ["a", "b"] :=
  ⟨rfl,
   (chat_capture_consistency initialState { method := "chat", content := "q" }
      ["a", "b"] _ rfl).1,
   (chat_capture_consistency initialState { method := "chat", content := "q" }
      ["a", "b"] _ rfl).2.1⟩

/-- Claim C5: reset empties the history, calls the engine's reset, emits
exactly one success diagnostic, writes nothing to stdout, and leaves the
system prompt and processing flag unchanged — so a subsequent chat still
sends the previously set system prompt as the leading message. -/
theorem reset_frame (st : SessionState) :
    (handleResetRequest st).state.chat_history = [] ∧
    (handleResetRequest st).state.system_prompt = st.system_prompt ∧
    (handleResetRequest st).state.processing = st.processing ∧
    (handleResetRequest st).ops = [EngineOp.reset] ∧
    (handleResetRequest st).diags =
      [⟨"message", "success", "模型已重置，对话历史已清空，系统提示词保留", "", ""⟩] ∧
    (handleResetRequest st).stdout = [] ∧
    (st.system_prompt ≠ "" → ∀ (req : Request) (ws : List String) (r : RunResult),
      handleChatRequest (handleResetRequest st).state req ws = Except.ok r →
      ∃ mnt, r.ops = [EngineOp.respond
        (("system", st.system_prompt) :: [("user", req.content)]) mnt]) := by
  refine ⟨rfl, rfl, rfl, rfl, rfl, rfl, ?_⟩
  intro hsp req ws r h
  obtain ⟨-, -, -, mnt, -, hops⟩ := handleChat_ok h
  refine ⟨mnt, ?_⟩
  rw [hops]
  have hne : st.system_prompt.isEmpty = false := by
    rw [Bool.eq_false_iff]
    intro hc
    exact hsp ((String.isEmpty_iff st.system_prompt).mp hc)
  simp [handleResetRequest, hne]

/-- Witness for C5: reset after one exchange with system prompt `X`,
then a chat that must lead with `("system", "X")`. -/
theorem reset_frame_witness :
    ({ system_prompt := "X", chat_history := [("user", "a"), ("assistant", "b")],
       processing := false } : SessionState).system_prompt ≠ "" ∧
    handleChatRequest
      (handleResetRequest { system_prompt := "X",
                            chat_history := [("user", "a"), ("assistant", "b")],
                            processing := false }).state
      { method := "chat", content := "q" } ["out"] =
      Except.ok
        { state := { system_prompt := "X",
                     chat_history := [("user", "q"), ("assistant", "out")],
                     processing := false },
          stdout := [StdoutEv.startMarker, StdoutEv.chunk "out", StdoutEv.endMarker],
          diags := [⟨"status", "success", "流式输出完成", "", ""⟩,
                    ⟨"response", "success", "完整响应已生成", "out", ""⟩],
          ops := [EngineOp.respond [("system", "X"), ("user", "q")] (-1)] } ∧
    (∃ mnt,
      ({ state := { system_prompt := "X",
                    chat_history := [("user", "q"), ("assistant", "out")],
                    processing := false },
         stdout := [StdoutEv.startMarker, StdoutEv.chunk "out", StdoutEv.endMarker],
         diags := [⟨"status", "success", "流式输出完成", "", ""⟩,
                   ⟨"response", "success", "完整响应已生成", "out", ""⟩],
         ops := [EngineOp.respond [("system", "X"), ("user", "q")] (-1)] } :
        RunResult).ops =
      [EngineOp.respond (("system", "X") :: [("user", "q")]) mnt]) :=
  ⟨by decide, rfl,
   (reset_frame { system_prompt := "X",
                  chat_history := [("user", "a"), ("assistant", "b")],
                  processing := false }).2.2.2.2.2.2 (by decide)
     { method := "chat", content := "q" } ["out"] _ rfl⟩

set_option maxRecDepth 8192 in
/-- Claim C6: `createStderrMessage` renders exactly the ordered field
list `type, [status], [message], [response], [data], timestamp`, each
optional field present iff its argument is non-empty and the timestamp
always; with `message_type="status", status="ready"` and all else empty
the output decodes (by the flat JSON reader) to exactly
`type:"status", status:"ready"` and the numeric timestamp, with no
message, response or data keys. -/
theorem createStderrMessage_fields :
    (∀ mt s m r d ts, createStderrMessage mt s m r d ts =
      renderObj (stderrFields mt s m r d ts)) ∧
    (∀ ts, (stderrFields "status" "ready" "" "" "" ts).map Prod.fst =
      ["type", "status", "timestamp"]) ∧
    parseJsonObj (createStderrMessage "status" "ready" "" "" "" 1712345678901) =
      some [("type", JVal.str "status"), ("status", JVal.str "ready"),
            ("timestamp", JVal.num 1712345678901)] := by
  refine ⟨?_, ?_, by decide⟩
  · intro mt s m r d ts
    cases hs : s.isEmpty <;> cases hm : m.isEmpty <;>
      cases hr : r.isEmpty <;> cases hd : d.isEmpty <;>
      · apply String.ext
        simp [createStderrMessage, stderrFields, renderObj, renderFieldList,
          renderField, hs, hm, hr, hd, String.data_append]
  · intro ts
    have h1 : ("ready" : String).isEmpty = false := rfl
    have h2 : ("" : String).isEmpty = true := rfl
    simp [stderrFields, h1, h2]

/-- Parity of the history length is preserved by every completed loop
prefix: chat appends two entries, reset clears, the other handlers leave
the history alone. -/
lemma runLoop_even_aux :
    ∀ (inputs : List LineInput) (st : SessionState) (res : RunResult),
      st.chat_history.length % 2 = 0 →
      runLoop st inputs = Except.ok res →
      res.state.chat_history.length % 2 = 0 := by
  intro inputs
  induction inputs with
  | nil =>
    intro st res h hr
    simp only [runLoop, Except.ok.injEq] at hr
    rw [← hr]
    exact h
  | cons inp rest ih =>
    intro st res h hr
    simp only [runLoop] at hr
    cases he : inp.line.isEmpty <;> rw [he] at hr
    case true =>
      simp only [if_pos] at hr
      exact ih st res h hr
    case false =>
      simp only [Bool.false_eq_true, if_false] at hr
      cases hc : (parseRequest inp.line).method == "chat" <;> rw [hc] at hr
      case true =>
        simp only [if_pos] at hr
        cases hh : handleChatRequest st (parseRequest inp.line) inp.engineWrites <;>
          simp only [hh] at hr
        case error => simp [stepJoin] at hr
        case ok cr =>
          cases hrl : runLoop cr.state rest <;> simp only [hrl] at hr
          case error => simp [stepJoin] at hr
          case ok r2 =>
            simp only [stepJoin, Except.ok.injEq] at hr
            have hcr := (handleChat_ok hh).1
            have heven : cr.state.chat_history.length % 2 = 0 := by
              rw [hcr]
              simp only [List.length_append, List.length_cons, List.length_nil]
              omega
            have := ih cr.state r2 heven hrl
            rw [← hr]
            exact this
      case false =>
        simp only [Bool.false_eq_true, if_false] at hr
        cases hs : (parseRequest inp.line).method == "status" <;> rw [hs] at hr
        case true =>
          simp only [if_pos] at hr
          cases hrl : runLoop (handleStatusRequest st inp.promptLen inp.genSeqLen).state
              rest <;> simp only [hrl] at hr
          case error => simp [stepJoin] at hr
          case ok r2 =>
            simp only [stepJoin, Except.ok.injEq] at hr
            have := ih _ r2 (by simpa [handleStatusRequest] using h) hrl
            rw [← hr]
            exact this
        case false =>
          simp only [Bool.false_eq_true, if_false] at hr
          cases hp : (parseRequest inp.line).method == "system_prompt" <;> rw [hp] at hr
          case true =>
            simp only [if_pos] at hr
            cases hrl : runLoop (handleSystemPromptRequest st (parseRequest inp.line)).state
                rest <;> simp only [hrl] at hr
            case error => simp [stepJoin] at hr
            case ok r2 =>
              simp only [stepJoin, Except.ok.injEq] at hr
              have hkeep :
                  (handleSystemPromptRequest st (parseRequest inp.line)).state.chat_history =
                    st.chat_history := by
                unfold handleSystemPromptRequest
                cases (parseRequest inp.line).content.isEmpty <;> simp
              have := ih _ r2 (by rw [hkeep]; exact h) hrl
              rw [← hr]
              exact this
          case false =>
            simp only [Bool.false_eq_true, if_false] at hr
            cases hz : (parseRequest inp.line).method == "reset" <;> rw [hz] at hr
            case true =>
              simp only [if_pos] at hr
              cases hrl : runLoop (handleResetRequest st).state rest <;>
                simp only [hrl] at hr
              case error => simp [stepJoin] at hr
              case ok r2 =>
                simp only [stepJoin, Except.ok.injEq] at hr
                have := ih _ r2 (by simp [handleResetRequest]) hrl
                rw [← hr]
                exact this
            case false =>
              simp only [Bool.false_eq_true, if_false] at hr
              cases hx : (parseRequest inp.line).method == "exit" <;> rw [hx] at hr
              case true =>
                simp only [if_pos, Except.ok.injEq] at hr
                rw [← hr]
                exact h
              case false =>
                simp only [Bool.false_eq_true, if_false] at hr
                cases hrl : runLoop st rest <;> simp only [hrl] at hr
                case error => simp [stepJoin] at hr
                case ok r2 =>
                  simp only [stepJoin, Except.ok.injEq] at hr
                  have := ih st r2 h hrl
                  rw [← hr]
                  exact this

/-- Claim C4: from the empty initial history, every completed loop
prefix leaves an even history length; a completed chat appends exactly
the user and assistant entries, reset empties the history, and the
system_prompt and status handlers never change it. -/
theorem chat_history_even_invariant :
    (∀ st req ws r, handleChatRequest st req ws = Except.ok r →
      r.state.chat_history = st.chat_history ++
        [("user", req.content), ("assistant", String.join ws)]) ∧
    (∀ st, (handleResetRequest st).state.chat_history = []) ∧
    (∀ st req, (handleSystemPromptRequest st req).state.chat_history =
      st.chat_history) ∧
    (∀ st pl gl, (handleStatusRequest st pl gl).state = st) ∧
    (∀ inputs res, runLoop initialState inputs = Except.ok res →
      res.state.chat_history.length % 2 = 0) := by
  refine ⟨?_, fun _ => rfl, ?_, fun _ _ _ => rfl, ?_⟩
  · intro st req ws r h
    rw [(handleChat_ok h).1]
  · intro st req
    unfold handleSystemPromptRequest
    cases req.content.isEmpty <;> simp
  · intro inputs res hr
    exact runLoop_even_aux inputs initialState res rfl hr

/-- Witness for C4: a one-request transcript (a reset) run from the
initial state. -/
theorem chat_history_even_invariant_witness :
    runLoop initialState [⟨"\x7b\"type\":\"reset\"\x7d", [], 0, 0⟩] =
      Except.ok
        { state := initialState, stdout := [],
          diags := [⟨"message", "success",
            "模型已重置，对话历史已清空，系统提示词保留", "", ""⟩],
          ops := [EngineOp.reset] } ∧
    ({ state := initialState, stdout := [],
       diags := [⟨"message", "success",
         "模型已重置，对话历史已清空，系统提示词保留", "", ""⟩],
       ops := [EngineOp.reset] } : RunResult).state.chat_history.length % 2 = 0 :=
  ⟨rfl, chat_history_even_invariant.2.2.2.2 [⟨"\x7b\"type\":\"reset\"\x7d", [], 0, 0⟩]
    _ rfl⟩

/-- The diagnostic the unknown-method branch emits
(`llm_stdio_core.cpp:438`). -/
def unknownDiag (m : String) : Diag :=
  ⟨"error", "error", "未知请求类型: " ++ m, "", ""⟩

set_option maxRecDepth 8192 in
/-- Claim C9: `parseRequest` is total (a malformed line degrades to
empty extracted fields, demonstrated on a garbage line), and a non-empty
line whose decoded method is none of the five known ones makes the loop
emit exactly one error diagnostic naming the method, change no session
state, and carry on with the remaining lines. -/
theorem unknown_method_loop (st : SessionState) (inp : LineInput)
    (rest : List LineInput)
    (hne : inp.line.isEmpty = false)
    (hm : (parseRequest inp.line).method ∉
      (["chat", "status", "system_prompt", "reset", "exit"] : List String)) :
    runLoop st (inp :: rest) =
      (runLoop st rest).map (fun r =>
        { r with diags := unknownDiag (parseRequest inp.line).method :: r.diags }) ∧
    (parseRequest "this line is not json").method = "" := by
  refine ⟨?_, by decide⟩
  simp only [List.mem_cons, List.mem_singleton, not_or] at hm
  obtain ⟨h1, h2, h3, h4, h5, -⟩ := hm
  have c1 : ((parseRequest inp.line).method == "chat") = false :=
    beq_eq_false_iff_ne.mpr h1
  have c2 : ((parseRequest inp.line).method == "status") = false :=
    beq_eq_false_iff_ne.mpr h2
  have c3 : ((parseRequest inp.line).method == "system_prompt") = false :=
    beq_eq_false_iff_ne.mpr h3
  have c4 : ((parseRequest inp.line).method == "reset") = false :=
    beq_eq_false_iff_ne.mpr h4
  have c5 : ((parseRequest inp.line).method == "exit") = false :=
    beq_eq_false_iff_ne.mpr h5
  simp only [runLoop, hne, Bool.false_eq_true, if_false, c1, c2, c3, c4, c5]
  cases hrl : runLoop st rest
  case error => simp [stepJoin, hrl, Except.map, unknownDiag]
  case ok r2 => simp [stepJoin, hrl, Except.map, unknownDiag]

set_option maxRecDepth 8192 in
/-- Witness for C9 at the spec's example line `{"type":"frobnicate"}`
against the empty remaining transcript. -/
theorem unknown_method_loop_witness :
    ("\x7b\"type\":\"frobnicate\"\x7d" : String).isEmpty = false ∧
    (parseRequest "\x7b\"type\":\"frobnicate\"\x7d").method ∉
      (["chat", "status", "system_prompt", "reset", "exit"] : List String) ∧
    runLoop initialState [⟨"\x7b\"type\":\"frobnicate\"\x7d", [], 0, 0⟩] =
      (runLoop initialState []).map (fun r =>
        { r with diags :=
            unknownDiag (parseRequest "\x7b\"type\":\"frobnicate\"\x7d").method ::
              r.diags }) :=
  ⟨rfl, by decide,
   (unknown_method_loop initialState ⟨"\x7b\"type\":\"frobnicate\"\x7d", [], 0, 0⟩ []
      rfl (by decide)).1⟩

end LlmStdio
